import Mathlib

/-!
# Scenario Viewer — verification of the interaction/state core

Shallow embedding of the state store (`src/state/index.ts`), the
interaction handlers (`src/interactions/card-drag.ts`,
`src/interactions/connections.ts`, `src/interactions/layout.ts`) and the
connection geometry (`src/templates/connection.ts`).

JavaScript numbers are modelled as exact rationals (`ℚ`): every operation
the embedded code performs is addition, subtraction, multiplication by a
ratio, or comparison, at magnitudes far from overflow, so exact arithmetic
is faithful. Card and side identifiers, parsed with `parseInt`, are `Int`
(a `NaN` parse aborts the handler before reaching the embedded logic).
Connection ids, generated in the source as
`conn-(Date.now())-(random suffix)`, are modelled by a `String` supplied
by the caller (an oracle for the generator); no embedded behaviour
branches on the generated text.
-/

/-- A scenario card: `CardLayout` from `src/state/index.ts`. -/
structure CardLayout where
  id : Int
  x : ℚ
  y : ℚ
  width : ℚ
  height : ℚ
  zIndex : ℚ
deriving DecidableEq, Repr

/-- A stored connection: `Connection` from `src/state/index.ts`.
Sides are numbers in the source (0 = top, 1 = right, 2 = bottom, 3 = left). -/
structure Connection where
  id : String
  fromCardId : Int
  fromSide : Int
  fromPosition : ℚ
  toCardId : Int
  toSide : Int
  toPosition : ℚ
deriving DecidableEq, Repr

/-- The argument record of `createConnection`: `Omit<Connection, 'id'>`. -/
structure ConnData where
  fromCardId : Int
  fromSide : Int
  fromPosition : ℚ
  toCardId : Int
  toSide : Int
  toPosition : ℚ
deriving DecidableEq, Repr

/-- The in-progress connection draft: the value stored in
`$pendingConnection` (`src/state/index.ts`). -/
structure PendingConnection where
  fromCardId : Int
  fromSide : Int
  startX : ℚ
  startY : ℚ
  currentX : ℚ
  currentY : ℚ
deriving DecidableEq, Repr

/-- The reactive cells of the Layout Store, as one record: `$allCards`,
`$allConnections`, `$activeDraggedCard`, `$pendingConnection`, `$hostUrl`. -/
structure StoreState where
  allCards : List CardLayout
  allConnections : List Connection
  activeDraggedCard : Option Int
  pendingConnection : Option PendingConnection
  hostUrl : String
deriving DecidableEq, Repr

/-- The action `updateCardPosition` (`src/state/index.ts` lines 107–119): maps over the
card list replacing `x`/`y` of every card whose id strict-equals `cardId`.
The source compares `JSON.stringify` of old and new lists and calls `set`
only on a difference; the stored value is the mapped list either way. -/
def updateCardPosition (cardId : Int) (x y : ℚ) (s : StoreState) : StoreState :=
  let updatedCards := s.allCards.map fun card =>
    if card.id == cardId then { card with x := x, y := y } else card
  { s with allCards := updatedCards }

/-- Embeds `Math.max(...cards.map(c => c.zIndex), 0)` from `bringCardToFront`. -/
def maxZIndex (cards : List CardLayout) : ℚ :=
  cards.foldl (fun acc c => max acc c.zIndex) 0

/-- The action `bringCardToFront` (`src/state/index.ts` lines 125–143): returns
unchanged on an empty list; otherwise finds the card and, when its zIndex
is at most `maxZIndex` (the source condition `cardToUpdate.zIndex <=
maxZIndex`), rewrites every card of that id to `maxZIndex + 1`. -/
def bringCardToFront (cardId : Int) (s : StoreState) : StoreState :=
  let cards := s.allCards
  if cards.isEmpty then s
  else
    let maxZ := maxZIndex cards
    match cards.find? (fun c => c.id == cardId) with
    | some cardToUpdate =>
      if cardToUpdate.zIndex ≤ maxZ then
        { s with allCards := cards.map fun card =>
            if card.id == cardId then { card with zIndex := maxZ + 1 } else card }
      else s
    | none => s

/-- The duplicate test of `createConnection`: the source's
`find` predicate compares `fromCardId`, `toCardId`, `fromSide`, `toSide`
(positions and id excluded). -/
def sameTuple (c : Connection) (d : ConnData) : Bool :=
  c.fromCardId == d.fromCardId && c.toCardId == d.toCardId &&
  c.fromSide == d.fromSide && c.toSide == d.toSide

/-- The record `createConnection` appends: `{...connectionData, id}`. -/
def connFrom (newId : String) (d : ConnData) : Connection :=
  { id := newId, fromCardId := d.fromCardId, fromSide := d.fromSide,
    fromPosition := d.fromPosition, toCardId := d.toCardId,
    toSide := d.toSide, toPosition := d.toPosition }

/-- The action `createConnection` (`src/state/index.ts` lines 149–170): a no-op when a
stored connection already has the same `(fromCardId, toCardId, fromSide,
toSide)` tuple; otherwise appends the record with the generated id
(`newId`, the oracle for `conn-(Date.now())-(random)`). -/
def createConnection (newId : String) (d : ConnData) (s : StoreState) : StoreState :=
  match s.allConnections.find? (fun c => sameTuple c d) with
  | some _ => s
  | none => { s with allConnections := s.allConnections ++ [connFrom newId d] }

/-- The action `removeConnection` (`src/state/index.ts` lines 176–187): filters the
matching id out; the stored value changes only when the length shrank. -/
def removeConnection (connectionId : String) (s : StoreState) : StoreState :=
  { s with allConnections := s.allConnections.filter (fun c => !(c.id == connectionId)) }

/-- A viewport bounding box as returned by `getBoundingClientRect()`:
the fields `getConnectionPointOnCard` reads. -/
structure Rect where
  left : ℚ
  top : ℚ
  right : ℚ
  bottom : ℚ
  width : ℚ
  height : ℚ
deriving DecidableEq, Repr

/-- A point in viewport pixels. -/
structure Point where
  x : ℚ
  y : ℚ
deriving DecidableEq, Repr

/-- The resolver `getConnectionPointOnCard` (`src/templates/connection.ts` lines 72–103),
for a card element with bounding box `rect`. The `switch` has cases for
sides 0–3; the `default` branch logs an error and returns the fallback
point `{x: rect.left, y: rect.top}`. The `cardElement === null` NaN path
is outside this embedding (a box is always at hand here). -/
def getConnectionPointOnCard (rect : Rect) (side : Int) ( positionRatio : ℚ) : Point :=
  if side == 0 then { x := rect.left + rect.width * positionRatio, y := rect.top }
  else if side == 1 then { x := rect.right, y := rect.top + rect.height * positionRatio }
  else if side == 2 then { x := rect.left + rect.width * positionRatio, y := rect.bottom }
  else if side == 3 then { x := rect.left, y := rect.top + rect.height * positionRatio }
  else { x := rect.left, y := rect.top }

/-- The closure state captured by `startDraggingCard`
(`src/interactions/card-drag.ts` lines 67–117): the dragged card's id, the
pointer-down coordinates (`startX`/`startY`) and the card's position read
at drag start (`initialX`/`initialY`), none of them re-read later. -/
structure DragCtx where
  cardId : Int
  startX : ℚ
  startY : ℚ
  initialX : ℚ
  initialY : ℚ
deriving DecidableEq, Repr

/-- The handler `startDraggingCard` (`src/interactions/card-drag.ts` lines 67–117):
sets `$activeDraggedCard`, calls `bringCardToFront`, then reads the card;
when the card data is missing it clears `$activeDraggedCard` and registers
no listeners (no `DragCtx`). -/
def startDraggingCard (cardId : Int) (px py : ℚ) (s : StoreState) :
    Option DragCtx × StoreState :=
  let s1 := bringCardToFront cardId { s with activeDraggedCard := some cardId }
  match s1.allCards.find? (fun c => c.id == cardId) with
  | none => (none, { s1 with activeDraggedCard := none })
  | some cardData => (some ⟨cardId, px, py, cardData.x, cardData.y⟩, s1)

/-- The listener `handleMove` inside `startDraggingCard`: on a pointer move to
`(mx, my)` it computes the delta from the pointer-down point and calls
`updateCardPosition cardId (initialX + delta.x) (initialY + delta.y)`. -/
def handleMove (ctx : DragCtx) (mx my : ℚ) (s : StoreState) : StoreState :=
  updateCardPosition ctx.cardId (ctx.initialX + (mx - ctx.startX))
    (ctx.initialY + (my - ctx.startY)) s

/-- A sequence of pointer moves processed by the registered `handleMove`
listener, in event order. -/
def dragMoves (ctx : DragCtx) (moves : List (ℚ × ℚ)) (s : StoreState) : StoreState :=
  moves.foldl (fun st m => handleMove ctx m.1 m.2 st) s

/-- A whole drag gesture before pointer-up: `startDraggingCard` at pointer
`(px, py)` followed by the listed pointer moves. -/
def dragSequence (cardId : Int) (px py : ℚ) (moves : List (ℚ × ℚ)) (s : StoreState) :
    StoreState :=
  match startDraggingCard cardId px py s with
  | (none, s1) => s1
  | (some ctx, s1) => dragMoves ctx moves s1

/-- A release target that resolved to a connection dot with successfully
parsed `data-card-id` and `data-side` attributes (`parseInt` not `NaN`). -/
structure DotTarget where
  cardId : Int
  side : Int
deriving DecidableEq, Repr

/-- The handler `handleConnectionEnd` (`src/interactions/connections.ts` lines 86–114):
with no pending draft it returns at once; otherwise it clears the draft
unconditionally, then creates a connection (positions fixed at `0.5`) only
when the release resolved to a dot on a different card. `target = none`
covers both a non-dot release and a dot whose attributes failed to parse. -/
def handleConnectionEnd (target : Option DotTarget) (newId : String) (s : StoreState) :
    StoreState :=
  match s.pendingConnection with
  | none => s
  | some pending =>
    let s1 := { s with pendingConnection := none }
    match target with
    | none => s1
    | some t =>
      if t.cardId == pending.fromCardId then s1
      else
        createConnection newId
          { fromCardId := pending.fromCardId, fromSide := pending.fromSide,
            fromPosition := 1/2, toCardId := t.cardId, toSide := t.side,
            toPosition := 1/2 } s1

/-- Modelled from the spec: the Layout Store cell `set` — the nanostores
`atom` implementation, a dependency whose source is not under `src/` —
"replaces and, only if the new value differs from the old by structural
equality, synchronously notifies subscribers". This predicate is the
"notifies" part. -/
def atomSetNotifies {α : Type} [DecidableEq α] (old new : α) : Bool :=
  decide (new ≠ old)

/-- Whether the `updateCardPosition` call notifies subscribers: the source
calls `set` only when `JSON.stringify` of old and new lists differ
(structural inequality on these records), and `set` itself (modelled from
the spec) notifies only on a structural change. -/
def updateCardPositionNotifies (cardId : Int) (x y : ℚ) (cards : List CardLayout) :
    Bool :=
  if (cards.map fun card =>
      if card.id == cardId then { card with x := x, y := y } else card) ≠ cards then
    atomSetNotifies cards (cards.map fun card =>
      if card.id == cardId then { card with x := x, y := y } else card)
  else false

/-- The listener `handleConnectionDragMove` (`src/interactions/connections.ts` lines
69–79) together with the notification it causes: with no draft it returns
without calling `set`; otherwise it sets a copy of the draft with
`currentX`/`currentY` replaced by the pointer position. Returns the new
draft cell value and whether subscribers were notified. -/
def handleConnectionDragMove (cx cy : ℚ) (pending : Option PendingConnection) :
    Option PendingConnection × Bool :=
  match pending with
  | none => (none, false)
  | some p =>
    let newPending : PendingConnection := { p with currentX := cx, currentY := cy }
    (some newPending, atomSetNotifies (some p) (some newPending))

/-- The parsed layout document as `loadLayoutFromFile` inspects it:
`isTruthyObject` is the conjunction of the source's `layoutData` truthiness
and `typeof layoutData === 'object'` tests; `cards` (resp. `connections`)
is `some` exactly when `Array.isArray` holds of that field, carrying the
array's elements, which the source applies with no per-element validation. -/
structure ParsedLayout where
  isTruthyObject : Bool
  cards : Option (List CardLayout)
  connections : Option (List ConnData)
deriving Repr

/-- The `layoutData.connections.forEach(conn => createConnection({...}))`
replay loop: `idGen k` is the oracle for the id generated on the `k`-th
call (source: `conn-(Date.now())-(random)`). -/
def replayConnections (idGen : Nat → String) (k : Nat) :
    List ConnData → StoreState → StoreState
  | [], s => s
  | d :: rest, s => replayConnections idGen (k + 1) rest (createConnection (idGen k) d s)

/-- The loader `loadLayoutFromFile` (`src/interactions/layout.ts` lines 67–108) after
`JSON.parse` succeeded: the shape test throws (caught; `alert`; store
untouched) unless the document is a truthy object whose `cards` and
`connections` are arrays; on success it clears both lists, sets the cards
verbatim and replays every connection through `createConnection`. -/
def loadLayoutFromFile (doc : ParsedLayout) (idGen : Nat → String) (s : StoreState) :
    StoreState :=
  if doc.isTruthyObject then
    match doc.cards, doc.connections with
    | some cs, some conns =>
      let s1 := { s with allCards := [], allConnections := [] }
      let s2 := { s1 with allCards := cs }
      replayConnections idGen 0 conns s2
    | _, _ => s
  else s

/-- A sequence of `createConnection` calls, each with its generated id. -/
def applyCreateCalls (calls : List (String × ConnData)) (s : StoreState) : StoreState :=
  calls.foldl (fun st p => createConnection p.1 p.2 st) s

/-- The `(fromCardId, toCardId, fromSide, toSide)` tuple of a stored
connection, the key of duplicate suppression. -/
def connKey (c : Connection) : Int × Int × Int × Int :=
  (c.fromCardId, c.toCardId, c.fromSide, c.toSide)

/-- No two stored connections share the duplicate-suppression tuple. -/
def NoDupTuples (l : List Connection) : Prop :=
  (l.map connKey).Nodup

/-- A concrete two-card store used to instantiate theorems: card 1 has the
strictly largest zIndex (5); card 2 has zIndex 1. -/
def sampleS : StoreState :=
  ⟨[⟨1, 0, 0, 350, 250, 5⟩, ⟨2, 10, 10, 350, 250, 1⟩], [], none, none, "h"⟩

/- ### Helper lemmas -/

lemma le_foldl_max (l : List CardLayout) (init : ℚ) :
    init ≤ l.foldl (fun acc c => max acc c.zIndex) init := by
  induction l generalizing init with
  | nil => exact le_rfl
  | cons a t ih =>
    rw [List.foldl_cons]
    exact le_trans (le_max_left _ _) (ih (max init a.zIndex))

lemma mem_le_foldl_max {c : CardLayout} :
    ∀ (l : List CardLayout) (init : ℚ), c ∈ l →
      c.zIndex ≤ l.foldl (fun acc d => max acc d.zIndex) init := by
  intro l
  induction l with
  | nil => intro init h; cases h
  | cons a t ih =>
    intro init h
    rw [List.foldl_cons]
    rcases List.mem_cons.mp h with rfl | ht
    · exact le_trans (le_max_right init c.zIndex) (le_foldl_max t _)
    · exact ih _ ht

lemma zIndex_le_maxZIndex {c : CardLayout} {cards : List CardLayout} (h : c ∈ cards) :
    c.zIndex ≤ maxZIndex cards :=
  mem_le_foldl_max cards 0 h

lemma find?_id_map (f : CardLayout → CardLayout) (hf : ∀ c, (f c).id = c.id)
    (l : List CardLayout) (k : Int) :
    (l.map f).find? (fun c => c.id == k) = (l.find? (fun c => c.id == k)).map f := by
  induction l with
  | nil => rfl
  | cons a t ih =>
    rw [List.map_cons]
    cases h : (a.id == k) with
    | true =>
      have h1 : ((f a).id == k) = true := by rw [hf]; exact h
      rw [List.find?_cons, List.find?_cons, h, h1]
      rfl
    | false =>
      have h1 : ((f a).id == k) = false := by rw [hf]; exact h
      rw [List.find?_cons, List.find?_cons, h, h1, ih]

lemma bringCardToFront_of_found {s : StoreState} {cardId : Int} {c : CardLayout}
    (h : s.allCards.find? (fun c => c.id == cardId) = some c) :
    bringCardToFront cardId s =
      { s with allCards := s.allCards.map fun card =>
          if card.id == cardId then { card with zIndex := maxZIndex s.allCards + 1 }
          else card } := by
  have hmem := List.mem_of_find?_eq_some h
  have hne : s.allCards.isEmpty = false := by
    cases hl : s.allCards with
    | nil => rw [hl] at hmem; cases hmem
    | cons a t => simp
  have hle : c.zIndex ≤ maxZIndex s.allCards := zIndex_le_maxZIndex hmem
  unfold bringCardToFront
  simp [hne, h, hle]

lemma bringCardToFront_of_none {s : StoreState} {cardId : Int}
    (h : s.allCards.find? (fun c => c.id == cardId) = none) :
    bringCardToFront cardId s = s := by
  unfold bringCardToFront
  by_cases hne : s.allCards.isEmpty = true
  · simp [hne]
  · simp only [Bool.not_eq_true] at hne
    simp [hne, h]

lemma createConnection_allCards (newId : String) (d : ConnData) (s : StoreState) :
    (createConnection newId d s).allCards = s.allCards := by
  unfold createConnection
  cases hf : s.allConnections.find? (fun c => sameTuple c d) <;> simp [hf]

lemma createConnection_of_dup {newId : String} {d : ConnData} {s : StoreState}
    (h : ∃ c ∈ s.allConnections, sameTuple c d = true) :
    createConnection newId d s = s := by
  unfold createConnection
  cases hf : s.allConnections.find? (fun c => sameTuple c d) with
  | some e => rfl
  | none =>
    exfalso
    obtain ⟨c, hc, hct⟩ := h
    exact (List.find?_eq_none.mp hf c hc) hct

lemma createConnection_of_new {newId : String} {d : ConnData} {s : StoreState}
    (h : ∀ c ∈ s.allConnections, sameTuple c d = false) :
    createConnection newId d s =
      { s with allConnections := s.allConnections ++ [connFrom newId d] } := by
  have hf : s.allConnections.find? (fun c => sameTuple c d) = none :=
    List.find?_eq_none.mpr (fun c hc => by simp [h c hc])
  unfold createConnection
  rw [hf]

lemma mem_createConnection {c : Connection} {newId : String} {d : ConnData}
    {s : StoreState} (h : c ∈ (createConnection newId d s).allConnections) :
    c ∈ s.allConnections ∨ c = connFrom newId d := by
  unfold createConnection at h
  cases hf : s.allConnections.find? (fun x => sameTuple x d) with
  | some e => rw [hf] at h; exact Or.inl h
  | none =>
    rw [hf] at h
    simpa using h

lemma connKey_connFrom (newId : String) (d : ConnData) :
    connKey (connFrom newId d) = (d.fromCardId, d.toCardId, d.fromSide, d.toSide) := rfl

lemma sameTuple_iff {c : Connection} {d : ConnData} :
    sameTuple c d = true ↔
      connKey c = (d.fromCardId, d.toCardId, d.fromSide, d.toSide) := by
  simp [sameTuple, connKey, Prod.ext_iff, and_assoc]

lemma noDup_createConnection {newId : String} {d : ConnData} {s : StoreState}
    (h : NoDupTuples s.allConnections) :
    NoDupTuples (createConnection newId d s).allConnections := by
  unfold createConnection
  cases hf : s.allConnections.find? (fun c => sameTuple c d) with
  | some e => exact h
  | none =>
    unfold NoDupTuples at h ⊢
    simp only [List.map_append, List.map_cons, List.map_nil]
    rw [List.nodup_append]
    refine ⟨h, List.nodup_singleton _, ?_⟩
    intro k hk hk1
    simp only [List.mem_singleton] at hk1
    obtain ⟨c, hc, rfl⟩ := List.mem_map.mp hk
    have hfalse := List.find?_eq_none.mp hf c hc
    rw [connKey_connFrom] at hk1
    exact hfalse (sameTuple_iff.mpr hk1)

lemma applyCreateCalls_cons (p : String × ConnData) (rest : List (String × ConnData))
    (s : StoreState) :
    applyCreateCalls (p :: rest) s = applyCreateCalls rest (createConnection p.1 p.2 s) := rfl

lemma noDup_applyCreateCalls :
    ∀ (calls : List (String × ConnData)) (s : StoreState),
      NoDupTuples s.allConnections →
      NoDupTuples (applyCreateCalls calls s).allConnections := by
  intro calls
  induction calls with
  | nil => intro s h; exact h
  | cons p rest ih =>
    intro s h
    rw [applyCreateCalls_cons]
    exact ih _ (noDup_createConnection h)

lemma replayConnections_cons (idGen : Nat → String) (k : Nat) (d : ConnData)
    (rest : List ConnData) (s : StoreState) :
    replayConnections idGen k (d :: rest) s =
      replayConnections idGen (k + 1) rest (createConnection (idGen k) d s) := rfl

lemma replayConnections_allCards (idGen : Nat → String) :
    ∀ (conns : List ConnData) (k : Nat) (s : StoreState),
      (replayConnections idGen k conns s).allCards = s.allCards := by
  intro conns
  induction conns with
  | nil => intro k s; rfl
  | cons d rest ih =>
    intro k s
    rw [replayConnections_cons, ih, createConnection_allCards]

lemma mem_replayConnections {idGen : Nat → String} :
    ∀ (conns : List ConnData) (k : Nat) (s : StoreState) (c : Connection),
      c ∈ (replayConnections idGen k conns s).allConnections →
      c ∈ s.allConnections ∨
        ∃ j d, d ∈ conns ∧ j < conns.length ∧ c = connFrom (idGen (k + j)) d := by
  intro conns
  induction conns with
  | nil => intro k s c h; exact Or.inl h
  | cons d0 rest ih =>
    intro k s c h
    rw [replayConnections_cons] at h
    rcases ih (k + 1) _ c h with h' | ⟨j, d, hd, hj, rfl⟩
    · rcases mem_createConnection h' with h'' | rfl
      · exact Or.inl h''
      · refine Or.inr ⟨0, d0, List.mem_cons_self _ _, by simp, ?_⟩
        rw [Nat.add_zero]
    · refine Or.inr ⟨j + 1, d, List.mem_cons_of_mem _ hd, by simp; omega, ?_⟩
      have harith : k + 1 + j = k + (j + 1) := by omega
      rw [← harith]

lemma handleConnectionEnd_none_pending {target : Option DotTarget} {newId : String}
    {s : StoreState} (hp : s.pendingConnection = none) :
    handleConnectionEnd target newId s = s := by
  unfold handleConnectionEnd
  rw [hp]

lemma handleConnectionEnd_no_target {newId : String} {s : StoreState}
    {pending : PendingConnection} (hp : s.pendingConnection = some pending) :
    handleConnectionEnd none newId s = { s with pendingConnection := none } := by
  unfold handleConnectionEnd
  rw [hp]

lemma handleConnectionEnd_some_eq (t : DotTarget) (newId : String) {s : StoreState}
    {pending : PendingConnection} (hp : s.pendingConnection = some pending) :
    handleConnectionEnd (some t) newId s =
      if (t.cardId == pending.fromCardId) = true then { s with pendingConnection := none }
      else createConnection newId
        { fromCardId := pending.fromCardId, fromSide := pending.fromSide,
          fromPosition := 1/2, toCardId := t.cardId, toSide := t.side, toPosition := 1/2 }
        { s with pendingConnection := none } := by
  unfold handleConnectionEnd
  rw [hp]

lemma updateCardPosition_allCards (cardId : Int) (x y : ℚ) (s : StoreState) :
    (updateCardPosition cardId x y s).allCards =
      s.allCards.map fun card =>
        if card.id == cardId then { card with x := x, y := y } else card := rfl

lemma updateCardPosition_find?_self (cardId : Int) (x y : ℚ) (s : StoreState) :
    (updateCardPosition cardId x y s).allCards.find? (fun c => c.id == cardId) =
      (s.allCards.find? (fun c => c.id == cardId)).map
        (fun c => if c.id == cardId then { c with x := x, y := y } else c) := by
  rw [updateCardPosition_allCards]
  exact find?_id_map _
    (fun c => by by_cases h : (c.id == cardId) = true <;> simp [h]) _ _

lemma handleMove_find? (ctx : DragCtx) (mx my : ℚ) (s : StoreState) {c : CardLayout}
    (h : s.allCards.find? (fun c => c.id == ctx.cardId) = some c) :
    (handleMove ctx mx my s).allCards.find? (fun c => c.id == ctx.cardId) =
      some { c with x := ctx.initialX + (mx - ctx.startX),
                    y := ctx.initialY + (my - ctx.startY) } := by
  unfold handleMove
  rw [updateCardPosition_find?_self, h]
  have hc := List.find?_some h
  simp only at hc
  have hc2 : c.id = ctx.cardId := by simpa using hc
  simp [hc2]

lemma dragMoves_cons (ctx : DragCtx) (m : ℚ × ℚ) (rest : List (ℚ × ℚ))
    (s : StoreState) :
    dragMoves ctx (m :: rest) s = dragMoves ctx rest (handleMove ctx m.1 m.2 s) := rfl

lemma dragMoves_append_last (ctx : DragCtx) (ms : List (ℚ × ℚ)) (mx my : ℚ)
    (s : StoreState) :
    dragMoves ctx (ms ++ [(mx, my)]) s = handleMove ctx mx my (dragMoves ctx ms s) := by
  unfold dragMoves
  rw [List.foldl_append, List.foldl_cons, List.foldl_nil]

lemma dragMoves_find?_isSome (ctx : DragCtx) :
    ∀ (moves : List (ℚ × ℚ)) (s : StoreState),
      ((s.allCards.find? (fun c => c.id == ctx.cardId)).isSome = true) →
      (((dragMoves ctx moves s).allCards.find? (fun c => c.id == ctx.cardId)).isSome
        = true) := by
  intro moves
  induction moves with
  | nil => intro s h; exact h
  | cons m rest ih =>
    intro s h
    rw [dragMoves_cons]
    apply ih
    obtain ⟨c, hc⟩ := Option.isSome_iff_exists.mp h
    rw [handleMove_find? ctx m.1 m.2 s hc]
    rfl

/-- C7: for every bounding box and every ratio in [0,1], the geometry
resolver returns (left + width·ratio, top) for TOP (0), (right, top +
height·ratio) for RIGHT (1), (left + width·ratio, bottom) for BOTTOM (2)
and (left, top + height·ratio) for LEFT (3); in particular on the box
{left 0, top 0, right 100, bottom 50} it returns (100, 25) for RIGHT at
ratio 1/2 and (0, 0) for TOP at ratio 0. -/
theorem geometry_resolver_formulas (rect : Rect) ( ratio : ℚ)
    (h0 : 0 ≤ ratio) (h1 : ratio ≤ 1) :
    getConnectionPointOnCard rect 0 ratio
        = { x := rect.left + rect.width * ratio, y := rect.top } ∧
    getConnectionPointOnCard rect 1 ratio
        = { x := rect.right, y := rect.top + rect.height * ratio } ∧
    getConnectionPointOnCard rect 2 ratio
        = { x := rect.left + rect.width * ratio, y := rect.bottom } ∧
    getConnectionPointOnCard rect 3 ratio
        = { x := rect.left, y := rect.top + rect.height * ratio } ∧
    getConnectionPointOnCard ⟨0, 0, 100, 50, 100, 50⟩ 1 (1/2) = { x := 100, y := 25 } ∧
    getConnectionPointOnCard ⟨0, 0, 100, 50, 100, 50⟩ 0 0 = { x := 0, y := 0 } := by
  refine ⟨by norm_num [getConnectionPointOnCard], by norm_num [getConnectionPointOnCard],
    by norm_num [getConnectionPointOnCard], by norm_num [getConnectionPointOnCard],
    by norm_num [getConnectionPointOnCard], by norm_num [getConnectionPointOnCard]⟩

/-- C7 witness: the theorem applied to the concrete box at ratio 1/2. -/
theorem geometry_resolver_formulas_witness :
    (0 : ℚ) ≤ 1/2 ∧ (1/2 : ℚ) ≤ 1 ∧
    getConnectionPointOnCard ⟨0, 0, 100, 50, 100, 50⟩ 1 (1/2) = { x := 100, y := 25 } :=
  ⟨by norm_num, by norm_num,
    (geometry_resolver_formulas ⟨0, 0, 100, 50, 100, 50⟩ (1/2)
      (by norm_num) (by norm_num)).2.2.2.2.1⟩

/-- C6 counterexample: on the box {left 0, top 0, right 100, bottom 50},
the resolver's answer for the invalid side 7 coincides with its valid
answer for TOP at ratio 0 — no error signal distinguishable from a valid
result is produced. -/
theorem invalid_side_indistinguishable_cex :
    getConnectionPointOnCard ⟨0, 0, 100, 50, 100, 50⟩ 7 (3/10)
      = getConnectionPointOnCard ⟨0, 0, 100, 50, 100, 50⟩ 0 0 := by
  norm_num [getConnectionPointOnCard]

/-- C6 amended: for any side other than 0–3 the resolver silently returns
the fallback point (left, top) (after logging to the console), a value not
distinguishable from valid results. -/
theorem invalid_side_returns_fallback (rect : Rect) (side : Int) ( ratio : ℚ)
    (h0 : side ≠ 0) (h1 : side ≠ 1) (h2 : side ≠ 2) (h3 : side ≠ 3) :
    getConnectionPointOnCard rect side ratio = { x := rect.left, y := rect.top } := by
  unfold getConnectionPointOnCard
  simp [h0, h1, h2, h3]

/-- C6 amended witness: the fallback at side 7. -/
theorem invalid_side_returns_fallback_witness :
    getConnectionPointOnCard ⟨0, 0, 100, 50, 100, 50⟩ 7 (3/10) = { x := 0, y := 0 } :=
  invalid_side_returns_fallback ⟨0, 0, 100, 50, 100, 50⟩ 7 (3/10)
    (by decide) (by decide) (by decide) (by decide)

/-- C3 counterexample: in `sampleS` card 1's zIndex (5) is already strictly
greater than every other card's (1), so the claim predicts a no-op; the
code still rewrites card 1's zIndex to 6. -/
theorem bringCardToFront_noop_claim_cex :
    (bringCardToFront 1 sampleS).allCards ≠ sampleS.allCards ∧
    (bringCardToFront 1 sampleS).allCards
      = [⟨1, 0, 0, 350, 250, 6⟩, ⟨2, 10, 10, 350, 250, 1⟩] := by
  refine ⟨?_, ?_⟩ <;>
    norm_num [bringCardToFront, maxZIndex, sampleS, List.foldl, max_def, List.find?]

/-- C3 amended: whenever the card is present, `bringCardToFront` rewrites
its zIndex to `max(0, max of all zIndex) + 1` — even when the card is
already strictly above every other card — and it is a no-op exactly when
the card is absent (which includes the empty list). -/
theorem bringCardToFront_always_promotes :
    (∀ (s : StoreState) (cardId : Int) (c0 : CardLayout),
      s.allCards.find? (fun c => c.id == cardId) = some c0 →
      (bringCardToFront cardId s).allCards
        = s.allCards.map fun card =>
            if card.id == cardId then
              { card with zIndex := maxZIndex s.allCards + 1 }
            else card)
    ∧ (∀ (s : StoreState) (cardId : Int),
      s.allCards.find? (fun c => c.id == cardId) = none →
      bringCardToFront cardId s = s) := by
  constructor
  · intro s cardId c0 h
    rw [bringCardToFront_of_found h]
  · intro s cardId h
    exact bringCardToFront_of_none h

/-- C3 amended witness: the promotion on `sampleS` for present card 1, and
the no-op for absent card 3. -/
theorem bringCardToFront_always_promotes_witness :
    sampleS.allCards.find? (fun c => c.id == 1) = some ⟨1, 0, 0, 350, 250, 5⟩ ∧
    ((bringCardToFront 1 sampleS).allCards
      = sampleS.allCards.map fun card =>
          if card.id == 1 then { card with zIndex := maxZIndex sampleS.allCards + 1 }
          else card) ∧
    bringCardToFront 3 sampleS = sampleS :=
  ⟨by norm_num [sampleS, List.find?],
   bringCardToFront_always_promotes.1 sampleS 1 ⟨1, 0, 0, 350, 250, 5⟩
     (by norm_num [sampleS, List.find?]),
   bringCardToFront_always_promotes.2 sampleS 3 (by decide)⟩

/-- C2: for every card list and every id present in it, immediately after
`bringCardToFront id` the zIndex of every card carrying that id is greater
than or equal to the zIndex of every card in the store. -/
theorem bringCardToFront_front_invariant (s : StoreState) (cardId : Int)
    (h : cardId ∈ s.allCards.map (fun c => c.id)) :
    ∀ c ∈ (bringCardToFront cardId s).allCards, c.id = cardId →
      ∀ c' ∈ (bringCardToFront cardId s).allCards, c'.zIndex ≤ c.zIndex := by
  obtain ⟨c0, hc0, hid⟩ := List.mem_map.mp h
  have hfind : (s.allCards.find? (fun c => c.id == cardId)).isSome = true :=
    List.find?_isSome.mpr ⟨c0, hc0, by simpa using hid⟩
  obtain ⟨c1, hc1⟩ := Option.isSome_iff_exists.mp hfind
  rw [bringCardToFront_of_found hc1]
  intro c hcmem hcid c' hcmem'
  obtain ⟨a, ha, rfl⟩ := List.mem_map.mp hcmem
  obtain ⟨b, hb, rfl⟩ := List.mem_map.mp hcmem'
  have hza : (if (a.id == cardId) = true then
      { a with zIndex := maxZIndex s.allCards + 1 } else a).zIndex
      = maxZIndex s.allCards + 1 := by
    by_cases haid : (a.id == cardId) = true
    · rw [if_pos haid]
    · exfalso
      rw [if_neg haid] at hcid
      exact haid (by simp [hcid])
  rw [hza]
  by_cases hbid : (b.id == cardId) = true
  · rw [if_pos hbid]
  · rw [if_neg hbid]
    have := zIndex_le_maxZIndex hb
    linarith

/-- C2 witness: the theorem applied to `sampleS` and card id 1. -/
theorem bringCardToFront_front_invariant_witness :
    (1 : Int) ∈ sampleS.allCards.map (fun c => c.id) ∧
    (∀ c ∈ (bringCardToFront 1 sampleS).allCards, c.id = 1 →
      ∀ c' ∈ (bringCardToFront 1 sampleS).allCards, c'.zIndex ≤ c.zIndex) :=
  ⟨by norm_num [sampleS], bringCardToFront_front_invariant sampleS 1 (by norm_num [sampleS])⟩

/-- C4: starting from a store with no duplicate `(fromCardId, fromSide,
toCardId, toSide)` tuples, no sequence of `createConnection` calls ever
produces two stored connections sharing a tuple; a single call whose tuple
already exists leaves the connection list unchanged, and otherwise appends
exactly one new connection carrying the freshly issued id. -/
theorem createConnection_uniqueness :
    (∀ (calls : List (String × ConnData)) (s : StoreState),
      NoDupTuples s.allConnections →
      NoDupTuples ((applyCreateCalls calls s).allConnections))
    ∧ (∀ (newId : String) (d : ConnData) (s : StoreState),
      (∃ c ∈ s.allConnections, sameTuple c d = true) →
      (createConnection newId d s).allConnections = s.allConnections)
    ∧ (∀ (newId : String) (d : ConnData) (s : StoreState),
      (∀ c ∈ s.allConnections, sameTuple c d = false) →
      (createConnection newId d s).allConnections
        = s.allConnections ++ [connFrom newId d]) := by
  refine ⟨noDup_applyCreateCalls, ?_, ?_⟩
  · intro newId d s h
    rw [createConnection_of_dup h]
  · intro newId d s h
    rw [createConnection_of_new h]

/-- C4 witness: replaying the same tuple twice from the empty store keeps
the tuples duplicate-free, a duplicate call is a no-op, and a new call
appends exactly the one generated record. -/
theorem createConnection_uniqueness_witness :
    NoDupTuples (StoreState.allConnections ⟨[], [], none, none, "h"⟩) ∧
    NoDupTuples ((applyCreateCalls
        [("a", ⟨1, 1, 1/2, 2, 3, 1/2⟩), ("b", ⟨1, 1, 1/2, 2, 3, 1/2⟩)]
        ⟨[], [], none, none, "h"⟩).allConnections) ∧
    ((createConnection "b" ⟨1, 1, 1/2, 2, 3, 1/2⟩
        ⟨[], [connFrom "a" ⟨1, 1, 1/2, 2, 3, 1/2⟩], none, none, "h"⟩).allConnections
      = [connFrom "a" ⟨1, 1, 1/2, 2, 3, 1/2⟩]) ∧
    ((createConnection "a" ⟨1, 1, 1/2, 2, 3, 1/2⟩
        ⟨[], [], none, none, "h"⟩).allConnections
      = [] ++ [connFrom "a" ⟨1, 1, 1/2, 2, 3, 1/2⟩]) :=
  ⟨by simp [NoDupTuples],
   createConnection_uniqueness.1 _ _ (by simp [NoDupTuples]),
   createConnection_uniqueness.2.1 "b" ⟨1, 1, 1/2, 2, 3, 1/2⟩ _
     ⟨connFrom "a" ⟨1, 1, 1/2, 2, 3, 1/2⟩, by simp, by decide⟩,
   createConnection_uniqueness.2.2 "a" ⟨1, 1, 1/2, 2, 3, 1/2⟩ _ (by simp)⟩

/-- C10: `updateCardPosition` keeps the list length and the order of card
ids; every card whose id differs from the given one is unchanged, and a
card with the matching id keeps its id, width, height and zIndex with only
x and y replaced. -/
theorem updateCardPosition_frame (s : StoreState) (cardId : Int) (x y : ℚ) :
    ((updateCardPosition cardId x y s).allCards.length = s.allCards.length) ∧
    ((updateCardPosition cardId x y s).allCards.map (fun c => c.id)
      = s.allCards.map (fun c => c.id)) ∧
    (∀ (i : Nat) (c : CardLayout), s.allCards[i]? = some c →
      (updateCardPosition cardId x y s).allCards[i]?
        = some (if c.id == cardId then { c with x := x, y := y } else c)) := by
  refine ⟨?_, ?_, ?_⟩
  · rw [updateCardPosition_allCards, List.length_map]
  · rw [updateCardPosition_allCards, List.map_map]
    apply List.map_congr_left
    intro a ha
    by_cases hh : a.id = cardId <;> simp [hh]
  · intro i c hc
    rw [updateCardPosition_allCards, List.getElem?_map, hc]
    rfl

/-- C10 witness: reading back slot 0 of `sampleS` after moving card 1 to
(7, 8). -/
theorem updateCardPosition_frame_witness :
    sampleS.allCards[0]? = some ⟨1, 0, 0, 350, 250, 5⟩ ∧
    (updateCardPosition 1 7 8 sampleS).allCards[0]?
      = some (if (⟨1, 0, 0, 350, 250, 5⟩ : CardLayout).id == 1 then
            { (⟨1, 0, 0, 350, 250, 5⟩ : CardLayout) with x := 7, y := 8 }
          else (⟨1, 0, 0, 350, 250, 5⟩ : CardLayout)) :=
  ⟨by norm_num [sampleS],
   (updateCardPosition_frame sampleS 1 7 8).2.2 0 ⟨1, 0, 0, 350, 250, 5⟩
     (by norm_num [sampleS])⟩

/-- C1 counterexample: on an empty store, `createConnection` invoked with
`fromCardId = toCardId = 1` (as layout-file loading can do) stores a
self-loop connection. -/
theorem createConnection_selfLoop_cex :
    ((createConnection "conn-1" ⟨1, 1, 1/2, 1, 3, 1/2⟩
        ⟨[], [], none, none, "h"⟩).allConnections.any
      (fun c => c.fromCardId == c.toCardId)) = true := by decide

/-- C1 amended: `createConnection` itself never rejects a self-loop — with
`fromCardId = toCardId` and no stored connection of the same tuple it
appends a self-loop connection (so layout loading can store one); the
rejection exists only in the gesture handler, whose pointer-up path
(`handleConnectionEnd`) preserves the no-self-loop property of the store. -/
theorem createConnection_selfLoop_amended :
    (∀ (newId : String) (d : ConnData) (s : StoreState),
      d.fromCardId = d.toCardId →
      (∀ c ∈ s.allConnections, sameTuple c d = false) →
      ∃ c ∈ (createConnection newId d s).allConnections, c.fromCardId = c.toCardId)
    ∧ (∀ (target : Option DotTarget) (newId : String) (s : StoreState),
      (∀ c ∈ s.allConnections, c.fromCardId ≠ c.toCardId) →
      ∀ c ∈ (handleConnectionEnd target newId s).allConnections,
        c.fromCardId ≠ c.toCardId) := by
  constructor
  · intro newId d s hd hno
    rw [createConnection_of_new hno]
    exact ⟨connFrom newId d, by simp, by simpa [connFrom] using hd⟩
  · intro target newId s hinv c hc
    cases hp : s.pendingConnection with
    | none =>
      rw [handleConnectionEnd_none_pending hp] at hc
      exact hinv c hc
    | some pending =>
      cases target with
      | none =>
        rw [handleConnectionEnd_no_target hp] at hc
        exact hinv c hc
      | some t =>
        rw [handleConnectionEnd_some_eq t newId hp] at hc
        by_cases ht : (t.cardId == pending.fromCardId) = true
        · rw [if_pos ht] at hc
          exact hinv c hc
        · rw [if_neg ht] at hc
          rcases mem_createConnection hc with h' | rfl
          · exact hinv c h'
          · show pending.fromCardId ≠ t.cardId
            intro heq
            exact ht (by simp [heq])

/-- C1 amended witness: the stored self-loop on the empty store, and the
gesture handler declining a same-card release while accepting the
invariant on a cross-card release. -/
theorem createConnection_selfLoop_amended_witness :
    (∃ c ∈ (createConnection "conn-w" ⟨1, 1, 1/2, 1, 3, 1/2⟩
        ⟨[], [], none, none, "h"⟩).allConnections, c.fromCardId = c.toCardId)
    ∧ (∀ c ∈ (handleConnectionEnd (some ⟨2, 3⟩) "conn-w2"
        ⟨[], [], none, some ⟨1, 1, 0, 0, 5, 5⟩, "h"⟩).allConnections,
        c.fromCardId ≠ c.toCardId) :=
  ⟨createConnection_selfLoop_amended.1 "conn-w" ⟨1, 1, 1/2, 1, 3, 1/2⟩ _ rfl
     (by simp),
   createConnection_selfLoop_amended.2 (some ⟨2, 3⟩) "conn-w2" _ (by simp)⟩

lemma bringCardToFront_find? {s : StoreState} {cardId : Int} {c : CardLayout}
    (h : s.allCards.find? (fun c => c.id == cardId) = some c) :
    (bringCardToFront cardId s).allCards.find? (fun c => c.id == cardId)
      = some { c with zIndex := maxZIndex s.allCards + 1 } := by
  rw [bringCardToFront_of_found h]
  show (s.allCards.map fun card =>
      if card.id == cardId then { card with zIndex := maxZIndex s.allCards + 1 }
      else card).find? (fun c => c.id == cardId) = _
  rw [find?_id_map _ (fun c => by by_cases hh : c.id = cardId <;> simp [hh])
    s.allCards cardId, h]
  have hc := List.find?_some h
  simp only at hc
  have hc2 : c.id = cardId := by simpa using hc
  simp [hc2]

lemma startDraggingCard_eq {s : StoreState} {cardId : Int} {c0 : CardLayout}
    (px py : ℚ) (h : s.allCards.find? (fun c => c.id == cardId) = some c0) :
    startDraggingCard cardId px py s
      = (some ⟨cardId, px, py, c0.x, c0.y⟩,
         bringCardToFront cardId { s with activeDraggedCard := some cardId }) := by
  have h' : ({ s with activeDraggedCard := some cardId } : StoreState).allCards.find?
      (fun c => c.id == cardId) = some c0 := h
  have hf1 := bringCardToFront_find? h'
  simp only [startDraggingCard, hf1]

lemma handleMove_find2 (cid : Int) (sx sy ix iy mx my : ℚ) (s : StoreState)
    {c : CardLayout} (h : s.allCards.find? (fun c => c.id == cid) = some c) :
    (handleMove ⟨cid, sx, sy, ix, iy⟩ mx my s).allCards.find? (fun c => c.id == cid)
      = some { c with x := ix + (mx - sx), y := iy + (my - sy) } :=
  handleMove_find? ⟨cid, sx, sy, ix, iy⟩ mx my s h

lemma dragMoves_find?_isSome2 (cid : Int) (sx sy ix iy : ℚ) (moves : List (ℚ × ℚ))
    (s : StoreState) (h : (s.allCards.find? (fun c => c.id == cid)).isSome = true) :
    (((dragMoves ⟨cid, sx, sy, ix, iy⟩ moves s).allCards.find?
      (fun c => c.id == cid)).isSome = true) :=
  dragMoves_find?_isSome ⟨cid, sx, sy, ix, iy⟩ moves s h

/-- C5: the Layout Store cell notifies subscribers exactly when the new
value differs structurally from the old: `updateCardPosition` notifies iff
the stored card list actually changed (its `JSON.stringify` guard and the
cell's own structural check impose the same condition), a pointer move
with a live draft notifies iff the pointer position differs from the
draft's recorded one, and a move with no draft never notifies. The cell
`set` itself is modelled from the spec (nanostores is a dependency, not
under `src/`). -/
theorem store_set_notifies_iff :
    (∀ (cardId : Int) (x y : ℚ) (s : StoreState),
      updateCardPositionNotifies cardId x y s.allCards = true ↔
        (updateCardPosition cardId x y s).allCards ≠ s.allCards)
    ∧ (∀ (cx cy : ℚ) (p : PendingConnection),
      (handleConnectionDragMove cx cy (some p)).2 = true ↔
        ¬(cx = p.currentX ∧ cy = p.currentY))
    ∧ (∀ (cx cy : ℚ), (handleConnectionDragMove cx cy none).2 = false) := by
  refine ⟨?_, ?_, fun cx cy => rfl⟩
  · intro cardId x y s
    unfold updateCardPositionNotifies
    rw [updateCardPosition_allCards]
    by_cases h : (s.allCards.map fun card =>
        if card.id == cardId then { card with x := x, y := y } else card) ≠ s.allCards
    · rw [if_pos h]
      simp [atomSetNotifies, h]
    · rw [if_neg h]
      rw [not_not] at h
      constructor
      · intro hh
        exact absurd hh (by simp)
      · intro hh
        exact absurd h hh
  · intro cx cy p
    cases p with
    | mk a b sx sy ox oy =>
      simp [handleConnectionDragMove, atomSetNotifies, PendingConnection.mk.injEq]
      tauto

/-- C8: a drag started at pointer (px, py) on a card at (x0, y0), followed
by any pointer moves whose last is at (px + dx, py + dy), leaves the card
at exactly (x0 + dx, y0 + dy): each move positions the card at its
drag-start position plus the total pointer delta, independent of
intermediate moves. -/
theorem drag_relativity (s : StoreState) (cardId : Int) (c0 : CardLayout)
    (px py dx dy : ℚ) (ms : List (ℚ × ℚ))
    (h : s.allCards.find? (fun c => c.id == cardId) = some c0) :
    ∃ c1,
      (dragSequence cardId px py (ms ++ [(px + dx, py + dy)]) s).allCards.find?
          (fun c => c.id == cardId) = some c1
      ∧ c1.x = c0.x + dx ∧ c1.y = c0.y + dy := by
  have h' : ({ s with activeDraggedCard := some cardId } : StoreState).allCards.find?
      (fun c => c.id == cardId) = some c0 := h
  have hf1 := bringCardToFront_find? h'
  unfold dragSequence
  rw [startDraggingCard_eq px py h]
  show ∃ c1,
      ((dragMoves ⟨cardId, px, py, c0.x, c0.y⟩ (ms ++ [(px + dx, py + dy)])
        (bringCardToFront cardId
          { s with activeDraggedCard := some cardId })).allCards.find?
        (fun c => c.id == cardId)) = some c1
      ∧ c1.x = c0.x + dx ∧ c1.y = c0.y + dy
  rw [dragMoves_append_last]
  have hS1 : ((bringCardToFront cardId
      { s with activeDraggedCard := some cardId }).allCards.find?
      (fun c => c.id == cardId)).isSome = true := by
    rw [hf1]
    rfl
  have hSome := dragMoves_find?_isSome2 cardId px py c0.x c0.y ms
    (bringCardToFront cardId { s with activeDraggedCard := some cardId }) hS1
  obtain ⟨cmid, hcmid⟩ := Option.isSome_iff_exists.mp hSome
  rw [handleMove_find2 cardId px py c0.x c0.y (px + dx) (py + dy) _ hcmid]
  refine ⟨_, rfl, ?_, ?_⟩
  · show c0.x + ((px + dx) - px) = c0.x + dx
    ring
  · show c0.y + ((py + dy) - py) = c0.y + dy
    ring

/-- C8 witness: dragging card 1 of `sampleS` from pointer (100, 100) with
an intermediate move to (130, 90) and a final move to (150, 70) puts the
card at (50, -30). -/
theorem drag_relativity_witness :
    sampleS.allCards.find? (fun c => c.id == 1) = some ⟨1, 0, 0, 350, 250, 5⟩ ∧
    ∃ c1, (dragSequence 1 100 100 ([(130, 90)] ++ [(100 + 50, 100 + (-30))])
        sampleS).allCards.find? (fun c => c.id == 1) = some c1
      ∧ c1.x = (⟨1, 0, 0, 350, 250, 5⟩ : CardLayout).x + 50
      ∧ c1.y = (⟨1, 0, 0, 350, 250, 5⟩ : CardLayout).y + (-30) :=
  ⟨by norm_num [sampleS, List.find?],
   drag_relativity sampleS 1 ⟨1, 0, 0, 350, 250, 5⟩ 100 100 50 (-30) [(130, 90)]
     (by norm_num [sampleS, List.find?])⟩

/-- C9: `loadLayoutFromFile` applies nothing unless the parsed document is
a truthy object whose `cards` and `connections` fields are arrays — on any
ill-shaped document the store is left exactly as it was; on a well-shaped
document the cards are set verbatim from the document and every stored
connection is one re-created through `createConnection` from a document
entry with a newly issued id. -/
theorem loadLayout_shape_gate :
    (∀ (doc : ParsedLayout) (idGen : Nat → String) (s : StoreState),
      doc.isTruthyObject = false → loadLayoutFromFile doc idGen s = s)
    ∧ (∀ (doc : ParsedLayout) (idGen : Nat → String) (s : StoreState),
      doc.cards = none → loadLayoutFromFile doc idGen s = s)
    ∧ (∀ (doc : ParsedLayout) (idGen : Nat → String) (s : StoreState),
      doc.connections = none → loadLayoutFromFile doc idGen s = s)
    ∧ (∀ (cs : List CardLayout) (conns : List ConnData) (idGen : Nat → String)
        (s : StoreState),
      (loadLayoutFromFile ⟨true, some cs, some conns⟩ idGen s).allCards = cs
      ∧ ∀ c ∈ (loadLayoutFromFile ⟨true, some cs, some conns⟩ idGen s).allConnections,
          ∃ k d, k < conns.length ∧ d ∈ conns ∧ c = connFrom (idGen k) d) := by
  refine ⟨?_, ?_, ?_, ?_⟩
  · intro doc idGen s h
    unfold loadLayoutFromFile
    rw [h]
    rfl
  · intro doc idGen s h
    unfold loadLayoutFromFile
    cases hobj : doc.isTruthyObject with
    | false => rfl
    | true =>
      rw [h]
      rfl
  · intro doc idGen s h
    unfold loadLayoutFromFile
    cases hobj : doc.isTruthyObject with
    | false => rfl
    | true =>
      cases hc : doc.cards with
      | none => rfl
      | some cs =>
        rw [h]
        rfl
  · intro cs conns idGen s
    constructor
    · show (replayConnections idGen 0 conns
        { s with allCards := cs, allConnections := [] }).allCards = cs
      rw [replayConnections_allCards]
    · intro c hc
      have hc' : c ∈ (replayConnections idGen 0 conns
          { s with allCards := cs, allConnections := [] }).allConnections := hc
      rcases mem_replayConnections conns 0
          { s with allCards := cs, allConnections := [] } c hc' with h' | ⟨j, d, hd, hj, rfl⟩
      · exact absurd h' (by simp)
      · exact ⟨j, d, hj, hd, by rw [Nat.zero_add]⟩

/-- C9 witness: an ill-shaped document leaves `sampleS` untouched; a
well-shaped one replaces the cards. -/
theorem loadLayout_shape_gate_witness :
    loadLayoutFromFile ⟨false, none, none⟩ (fun _ => "x") sampleS = sampleS ∧
    loadLayoutFromFile ⟨true, none, some []⟩ (fun _ => "x") sampleS = sampleS ∧
    (loadLayoutFromFile ⟨true, some [⟨9, 0, 0, 1, 1, 1⟩], some []⟩
        (fun _ => "x") sampleS).allCards = [⟨9, 0, 0, 1, 1, 1⟩] :=
  ⟨loadLayout_shape_gate.1 ⟨false, none, none⟩ (fun _ => "x") sampleS rfl,
   loadLayout_shape_gate.2.1 ⟨true, none, some []⟩ (fun _ => "x") sampleS rfl,
   (loadLayout_shape_gate.2.2.2 [⟨9, 0, 0, 1, 1, 1⟩] [] (fun _ => "x") sampleS).1⟩
